import Mathlib

/-!
Shallow embedding of the playback-control core of the `audio-player`
repository (src/src/app/audio_handler.rs, src/src/app/ui/progress_bar.rs,
src/src/app/ui/now_playing.rs).

Conventions of the embedding:
* `std::time::Duration` values are modelled as integers (`Int`), a count of
  time units; Rust durations are never negative, which the theorems carry as
  explicit `0 ≤ _` hypotheses where it matters.
* The rodio `Sink` is modelled by its observable playback state: current
  position (`get_pos`) and the paused flag (`play` / `pause`).
* `Sink::try_seek` can fail at runtime; the environment `env : Int → Bool`
  says whether an absolute seek to a given target succeeds.  On success the
  sink position becomes the target, on failure the sink is unchanged.
* The mpsc channels are modelled as FIFO queues (lists); a `send` either
  reaches the queue or fails because the receiving end was dropped.
* A Rust panic (`unwrap` / `expect` on a failing value) is modelled as the
  `Except.error` branch of the function's result.
-/

namespace AudioPlayer

/-- Observable state of the rodio `Sink` owned by the playback worker:
current playback position (`Sink::get_pos`) and whether playback is paused. -/
structure Sink where
  pos : Int
  paused : Bool
deriving Repr, DecidableEq

/-- `Sink::get_pos`. -/
def Sink.get_pos (s : Sink) : Int := s.pos

/-- `Sink::play`: resume playback (no-op when already playing). -/
def Sink.play (s : Sink) : Sink := { s with paused := false }

/-- `Sink::pause`: pause playback (no-op when already paused). -/
def Sink.pause (s : Sink) : Sink := { s with paused := true }

/-- `Sink::try_seek(target)`: the environment decides whether the absolute
seek succeeds; on success the position becomes `target`, on failure the sink
is left unchanged.  Returns the sink together with the `Result`. -/
def Sink.try_seek (env : Int → Bool) (s : Sink) (target : Int) : Sink × Bool :=
  if env target then ({ s with pos := target }, true) else (s, false)

/-- `Duration::checked_sub`: `none` when the subtraction would go negative. -/
def checked_sub (p d : Int) : Option Int :=
  if p - d < 0 then none else some (p - d)

/-- The `Message` enum sent from the UI to the playback worker
(`Play | Pause | FastForward(Duration) | Rewind(Duration)`). -/
inductive Message where
  | play : Message
  | pause : Message
  | fastForward (d : Int) : Message
  | rewind (d : Int) : Message
deriving Repr, DecidableEq

/-- Result of running one command handler: the sink afterwards, the list of
absolute seek targets passed to `try_seek` (in order), and the list of
positions sent on `audio_pos_sender` to the progress bar (in order). -/
structure HandlerResult where
  sink : Sink
  seeks : List Int
  sent : List Int
deriving Repr, DecidableEq

/-- `AudioHandler::fast_forward`: read `current_pos`, compute
`target_pos = current_pos + duration_secs`, attempt one absolute seek to it
(logging on failure), then send `target_pos` to the progress bar
(logging on failure). -/
def fast_forward (env : Int → Bool) (sink : Sink) (duration_secs : Int) :
    HandlerResult :=
  let current_pos := sink.get_pos
  let target_pos := current_pos + duration_secs
  let seek_result := Sink.try_seek env sink target_pos
  { sink := seek_result.1, seeks := [target_pos], sent := [target_pos] }

/-- `AudioHandler::rewind`: read `current_pos`, compute
`target_pos = current_pos.checked_sub(duration_secs).unwrap_or(Duration::ZERO)`,
attempt one absolute seek to it (logging on failure), then send `target_pos`
to the progress bar (logging on failure). -/
def rewind (env : Int → Bool) (sink : Sink) (duration_secs : Int) :
    HandlerResult :=
  let current_pos := sink.get_pos
  let target_pos := (checked_sub current_pos duration_secs).getD 0
  let seek_result := Sink.try_seek env sink target_pos
  { sink := seek_result.1, seeks := [target_pos], sent := [target_pos] }

/-- The closure passed to `with_sink` for each message in
`AudioHandler::handle_messages`. -/
def apply_message (env : Int → Bool) (message : Message) (sink : Sink) :
    HandlerResult :=
  match message with
  | .play => { sink := sink.play, seeks := [], sent := [] }
  | .pause => { sink := sink.pause, seeks := [], sent := [] }
  | .fastForward d => fast_forward env sink d
  | .rewind d => rewind env sink d

/-- `AudioHandler::with_sink`: lock the shared slot, `expect` the sink to be
present (the `none` case is the panic `"Sink not initialized"`), and run the
closure on it. -/
def with_sink {α : Type} (sink_ref : Option Sink) (f : Sink → α) :
    Except String α :=
  match sink_ref with
  | none => .error "Sink not initialized"
  | some sink => .ok (f sink)

/-- `AudioHandler::handle_messages`: dispatch one message through
`with_sink`. -/
def handle_messages (env : Int → Bool) (message : Message)
    (sink_ref : Option Sink) : Except String HandlerResult :=
  with_sink sink_ref (fun sink => apply_message env message sink)

/-! ### The worker loop of `AudioHandler::play_audio` as a state machine.

Producers send messages on the mpsc channel (`sender.send(message)` from the
UI thread); the single worker thread runs
`loop { let message = receiver.lock().unwrap().recv().unwrap();
AudioHandler::handle_messages(message, ...) }`, dequeuing one message at a
time from the FIFO channel and running its handler to completion before the
next `recv`. -/

/-- Global state of the command channel and the worker: the full sequence of
messages sent so far (in send order), the messages still queued in the
channel, the messages the worker has already fully handled (in handling
order), and the sink. -/
structure WorkerState where
  sent : List Message
  queue : List Message
  handled : List Message
  sink : Sink
deriving Repr, DecidableEq

/-- One step of the system: either some producer sends a message (it is
appended to the FIFO channel), or the single worker dequeues the oldest
queued message and runs `handle_messages` on it to completion. -/
inductive WorkerStep (env : Int → Bool) : WorkerState → WorkerState → Prop where
  | send (w : WorkerState) (m : Message) :
      WorkerStep env w
        { sent := w.sent ++ [m], queue := w.queue ++ [m],
          handled := w.handled, sink := w.sink }
  | handle (w : WorkerState) (m : Message) (rest : List Message)
      (hq : w.queue = m :: rest) :
      WorkerStep env w
        { sent := w.sent, queue := rest, handled := w.handled ++ [m],
          sink := (apply_message env m w.sink).sink }

/-- Worker state right after `play_audio` initialized the sink and entered
the message loop: nothing sent, queued or handled yet. -/
def init_worker_state (s0 : Sink) : WorkerState :=
  { sent := [], queue := [], handled := [], sink := s0 }

/-! ### `AudioHandler::send_audio_pos`: the position-reporter loop.

Each iteration locks the sink slot, sleeps 100 ms and reads the position
while holding the lock (the closure passed to `with_sink`), releases the
lock, and sends the position on `audio_pos_sender`; on `Ok` it loops, on
`Err` (the consumer end was dropped) it breaks. `alive i` tells whether the
send of iteration `i` succeeds. The fuel-indexed run returns
`some n` when the loop has broken after exactly `n` iterations, and `none`
while it is still running after `fuel` iterations. -/

/-- The reporter loop, started at iteration index `i` with `fuel` iterations
of budget. -/
def reporter_run (alive : Nat → Bool) : Nat → Nat → Option Nat
  | 0, _ => none
  | fuel + 1, i => if alive i then reporter_run alive fuel (i + 1) else some (i + 1)

/-! ### Lock discipline.

`with_sink` holds the mutex on the sink slot for exactly the duration of the
closure it is given.  To reason about what happens while the lock is held we
transcribe each closure body appearing in the source into the list of
primitive effects it performs, in program order. -/

/-- Primitive effects that can occur inside a `with_sink` closure. -/
inductive Action where
  | sleep (ms : Nat) : Action
  | getPos : Action
  | trySeek : Action
  | sendPos : Action
  | play : Action
  | pause : Action
deriving Repr, DecidableEq

/-- Effects performed while the reporter's `with_sink` closure holds the
lock: `thread::sleep(Duration::from_millis(100)); sink.get_pos()`. -/
def reporter_locked_actions : List Action := [.sleep 100, .getPos]

/-- Effects performed while the lock is held by the `with_sink` closure that
`handle_messages` runs for each message: `sink.play()` / `sink.pause()` for
`Play`/`Pause`, and the whole of `fast_forward` / `rewind` — position read,
`try_seek`, and the channel send to the progress bar — for the seeks. -/
def handler_locked_actions : Message → List Action
  | .play => [.play]
  | .pause => [.pause]
  | .fastForward _ => [.getPos, .trySeek, .sendPos]
  | .rewind _ => [.getPos, .trySeek, .sendPos]

/-! ### `ProgressBar` (src/src/app/ui/progress_bar.rs). -/

/-- `Duration::clamp(lo, hi)` (Rust `Ord::clamp`): below `lo` gives `lo`,
above `hi` gives `hi`, otherwise unchanged. -/
def clamp_duration (pos lo hi : Int) : Int :=
  if pos < lo then lo else if pos > hi then hi else pos

/-- The drain loop of `ProgressBar::update`: every position received on
`audio_pos_receiver` is stored as
`pos.clamp(Duration::ZERO, self.audio_length)`, the last one winning;
`current` is the stored position before the call. -/
def progress_update (audio_length : Int) (current : Int)
    (received : List Int) : Int :=
  received.foldl (fun _cur pos => clamp_duration pos 0 audio_length) current

/-- Initial value of `current_audio_pos` in `ProgressBar::new`:
`Duration::from_secs(0)`. -/
def initial_audio_pos : Int := 0

/-- Two-digit zero padding, Rust's format spec `{:02}` for a value that is
already known to be nonnegative. -/
def pad2 (n : Nat) : String :=
  if n < 10 then "0" ++ toString n else toString n

/-- `ProgressBar::format_duration` on `duration.as_secs()`: split into
hours / minutes / seconds; with a nonzero hour render `"h:mm:ss"`, otherwise
render `"m:ss"`. -/
def format_duration (total_secs : Nat) : String :=
  let hours := total_secs / 3600
  let rem_secs := total_secs % 3600
  let minutes := rem_secs / 60
  let seconds := rem_secs % 60
  if hours > 0 then
    toString hours ++ ":" ++ pad2 minutes ++ ":" ++ pad2 seconds
  else
    toString minutes ++ ":" ++ pad2 seconds

/-! ### `NowPlaying` (src/src/app/ui/now_playing.rs). -/

/-- The fields of a lofty `Tag` that the metadata extraction reads. -/
structure Tag where
  title : Option String
  artist : Option String
deriving Repr, DecidableEq

/-- The lofty error kinds `parse_file` can produce in the embedding. -/
inductive LoftyErrorKind where
  | fakeTag : LoftyErrorKind
  | readError : LoftyErrorKind
deriving Repr, DecidableEq

/-- `NowPlaying::extract_title_from_tag`:
`tag.title().unwrap_or("Untitled audio")`. -/
def extract_title_from_tag (tag : Tag) : String :=
  tag.title.getD "Untitled audio"

/-- `NowPlaying::extract_artist_from_tag`:
`tag.artist().unwrap_or("No artist")`. -/
def extract_artist_from_tag (tag : Tag) : String :=
  tag.artist.getD "No artist"

/-- The tag-selection and validation logic of `NowPlaying::parse_file` on a
file that was read successfully: take the primary tag, falling back to the
first tag; error with `FakeTag` when neither exists; then
`if tag.title().is_none() || tag.artist().is_none()` error with `FakeTag`;
otherwise return the tag. -/
def parse_file (primary_tag first_tag : Option Tag) :
    Except LoftyErrorKind Tag :=
  match primary_tag.orElse (fun _ => first_tag) with
  | none => .error .fakeTag
  | some tag =>
    if tag.title.isNone || tag.artist.isNone then .error .fakeTag
    else .ok tag

/-- `NowPlaying::new` as far as text metadata goes:
`parse_file(path).unwrap()` — a panic (modelled as `Except.error`) when
`parse_file` errs — then the extracted title and artist. -/
def now_playing_new (primary_tag first_tag : Option Tag) :
    Except String (String × String) :=
  match parse_file primary_tag first_tag with
  | .error _ => .error "called unwrap on an Err value"
  | .ok tag => .ok (extract_title_from_tag tag, extract_artist_from_tag tag)

/-! ## Theorems -/

/-- The saturating target computation of `rewind`:
`checked_sub(p, d).unwrap_or(ZERO)` is `max (p - d) 0`. -/
theorem checked_sub_getD_eq_max (p d : Int) :
    (checked_sub p d).getD 0 = max (p - d) 0 := by
  unfold checked_sub
  split <;> simp <;> omega

/-- C1: handling `Rewind(d)` from position `p` computes the absolute seek
target `max (p - d) 0` by saturating subtraction and seeks there: exactly
one seek is issued, to `max (p - d) 0`; when the seek succeeds the new
position is `p - d` if `d ≤ p` and `0` if `d > p`; the target is never
negative. -/
theorem rewind_saturating_sub (env : Int → Bool) (s : Sink) (d : Int)
    (hseek : env (max (s.pos - d) 0) = true) :
    (rewind env s d).seeks = [max (s.pos - d) 0] ∧
    (rewind env s d).sink.pos = max (s.pos - d) 0 ∧
    (d ≤ s.pos → (rewind env s d).sink.pos = s.pos - d) ∧
    (s.pos < d → (rewind env s d).sink.pos = 0) ∧
    0 ≤ (rewind env s d).sink.pos := by
  have hmax := checked_sub_getD_eq_max s.pos d
  refine ⟨?_, ?_, ?_, ?_, ?_⟩
  all_goals simp [rewind, Sink.try_seek, Sink.get_pos, hmax, hseek]
  all_goals omega

/-- Witness for C1 at `p = 10`, `d = 3`, with a seek that succeeds. -/
theorem rewind_saturating_sub_witness :
    (rewind (fun _ => true) ⟨10, false⟩ 3).seeks = [max (10 - 3) 0] ∧
    (rewind (fun _ => true) ⟨10, false⟩ 3).sink.pos = max (10 - 3) 0 ∧
    ((3 : Int) ≤ 10 → (rewind (fun _ => true) ⟨10, false⟩ 3).sink.pos = 10 - 3) ∧
    ((10 : Int) < 3 → (rewind (fun _ => true) ⟨10, false⟩ 3).sink.pos = 0) ∧
    0 ≤ (rewind (fun _ => true) ⟨10, false⟩ 3).sink.pos :=
  rewind_saturating_sub (fun _ => true) ⟨10, false⟩ 3 rfl

/-- C6: handling `FastForward(d)` from position `p` computes the absolute
target `p + d` and issues exactly one absolute seek to it (so a failed seek
is not retried); when the seek succeeds the position becomes `p + d`, and
when it fails the sink — position and play/pause state — is exactly as
before the command. -/
theorem fast_forward_single_seek (env : Int → Bool) (s : Sink) (d : Int) :
    (fast_forward env s d).seeks = [s.pos + d] ∧
    (env (s.pos + d) = true →
      (fast_forward env s d).sink = { s with pos := s.pos + d }) ∧
    (env (s.pos + d) = false → (fast_forward env s d).sink = s) := by
  unfold fast_forward Sink.try_seek Sink.get_pos
  refine ⟨rfl, fun h => ?_, fun h => ?_⟩ <;> simp [h]

/-- Witness for C6 at `p = 5`, `d = 3`. -/
theorem fast_forward_single_seek_witness :
    (fast_forward (fun _ => true) ⟨5, false⟩ 3).seeks = [5 + 3] ∧
    ((fun _ : Int => true) (5 + 3) = true →
      (fast_forward (fun _ => true) ⟨5, false⟩ 3).sink = ⟨5 + 3, false⟩) ∧
    ((fun _ : Int => true) (5 + 3) = false →
      (fast_forward (fun _ => true) ⟨5, false⟩ 3).sink = ⟨5, false⟩) :=
  fast_forward_single_seek (fun _ => true) ⟨5, false⟩ 3

/-- C3 counterexample: at position 5, `FastForward(3)` whose seek fails
leaves the sink at position 5 but still sends position 8 — not the
pre-command position 5 — to the display layer, so observable state after
the failed command differs from the pre-command state. -/
theorem seek_failure_sends_target_counterexample :
    (fast_forward (fun _ => false) ⟨5, false⟩ 3).sink = ⟨5, false⟩ ∧
    (fast_forward (fun _ => false) ⟨5, false⟩ 3).sent = [8] ∧
    (8 : Int) ≠ 5 := by
  refine ⟨rfl, rfl, by decide⟩

/-- C3 amended: when the seek of a `FastForward` or `Rewind` fails, the
error is only logged, the seek is attempted exactly once (never retried)
and the sink — playback position and play/pause state — is unchanged; but
the handler still sends the computed target position (not the pre-command
position) to the display layer. -/
theorem seek_failure_logged_target_still_sent (env : Int → Bool) (s : Sink)
    (d : Int) (hf : env (s.pos + d) = false)
    (hr : env (max (s.pos - d) 0) = false) :
    ((fast_forward env s d).sink = s ∧
      (fast_forward env s d).seeks = [s.pos + d] ∧
      (fast_forward env s d).sent = [s.pos + d]) ∧
    ((rewind env s d).sink = s ∧
      (rewind env s d).seeks = [max (s.pos - d) 0] ∧
      (rewind env s d).sent = [max (s.pos - d) 0]) := by
  have hmax := checked_sub_getD_eq_max s.pos d
  refine ⟨⟨?_, ?_, ?_⟩, ⟨?_, ?_, ?_⟩⟩ <;>
    simp [fast_forward, rewind, Sink.try_seek, Sink.get_pos, hmax, hf, hr]

/-- Witness for the amended C3 at `p = 5`, `d = 3`, all seeks failing. -/
theorem seek_failure_logged_target_still_sent_witness :
    ((fast_forward (fun _ => false) ⟨5, false⟩ 3).sink = ⟨5, false⟩ ∧
      (fast_forward (fun _ => false) ⟨5, false⟩ 3).seeks = [5 + 3] ∧
      (fast_forward (fun _ => false) ⟨5, false⟩ 3).sent = [5 + 3]) ∧
    ((rewind (fun _ => false) ⟨5, false⟩ 3).sink = ⟨5, false⟩ ∧
      (rewind (fun _ => false) ⟨5, false⟩ 3).seeks = [max (5 - 3) 0] ∧
      (rewind (fun _ => false) ⟨5, false⟩ 3).sent = [max (5 - 3) 0]) :=
  seek_failure_logged_target_still_sent (fun _ => false) ⟨5, false⟩ 3 rfl rfl

/-- C8: `format_duration` renders 61 s as `"1:01"`, 158 s as `"2:38"` and
3601 s as `"1:00:01"`; in general the hours field is omitted exactly when
the duration is under one hour, and the minutes field (when hours are
shown) and the seconds field are zero-padded to two digits. -/
theorem format_duration_spec :
    format_duration 61 = "1:01" ∧
    format_duration 158 = "2:38" ∧
    format_duration 3601 = "1:00:01" ∧
    (∀ t : Nat, t < 3600 →
      format_duration t = toString (t / 60) ++ ":" ++ pad2 (t % 60)) ∧
    (∀ t : Nat, 3600 ≤ t →
      format_duration t =
        toString (t / 3600) ++ ":" ++ pad2 (t % 3600 / 60) ++ ":" ++
          pad2 (t % 60)) ∧
    (∀ n : Nat, n < 100 → (pad2 n).length = 2) := by
  refine ⟨rfl, rfl, rfl, fun t ht => ?_, fun t ht => ?_, fun n hn => ?_⟩
  · unfold format_duration
    have h0 : t / 3600 = 0 := Nat.div_eq_of_lt ht
    have h1 : t % 3600 = t := Nat.mod_eq_of_lt ht
    simp [h0, h1]
  · unfold format_duration
    have h0 : 0 < t / 3600 := Nat.div_pos ht (by norm_num)
    have h2 : t % 3600 % 60 = t % 60 := Nat.mod_mod_of_dvd t (by norm_num)
    simp [h0, h2]
  · unfold pad2
    split
    · next h =>
      interval_cases n <;> rfl
    · next h =>
      have h10 : 10 ≤ n := Nat.le_of_not_lt h
      interval_cases n <;> rfl

/-- Witness for C8's universally quantified parts at `t = 61`, `t = 3601`
and `n = 7`. -/
theorem format_duration_spec_witness :
    format_duration 61 = toString (61 / 60) ++ ":" ++ pad2 (61 % 60) ∧
    format_duration 3601 =
      toString (3601 / 3600) ++ ":" ++ pad2 (3601 % 3600 / 60) ++ ":" ++
        pad2 (3601 % 60) ∧
    (pad2 7).length = 2 :=
  ⟨format_duration_spec.2.2.2.1 61 (by decide),
   format_duration_spec.2.2.2.2.1 3601 (by decide),
   format_duration_spec.2.2.2.2.2 7 (by decide)⟩

/-- `clamp_duration` lands in `[lo, hi]` whenever `lo ≤ hi`. -/
theorem clamp_duration_mem (pos lo hi : Int) (h : lo ≤ hi) :
    lo ≤ clamp_duration pos lo hi ∧ clamp_duration pos lo hi ≤ hi := by
  unfold clamp_duration
  split_ifs <;> omega

/-- The drain loop of `ProgressBar::update` keeps the stored position in
`[0, audio_length]` whatever list of positions arrives. -/
theorem progress_update_bounds (audio_length : Int) (received : List Int) :
    ∀ current, 0 ≤ audio_length → 0 ≤ current → current ≤ audio_length →
      0 ≤ progress_update audio_length current received ∧
      progress_update audio_length current received ≤ audio_length := by
  induction received with
  | nil => exact fun c _ h0 h1 => ⟨h0, h1⟩
  | cons p rest ih =>
    intro c hlen h0 h1
    have hc := clamp_duration_mem p 0 audio_length hlen
    simpa [progress_update] using
      ih (clamp_duration p 0 audio_length) hlen hc.1 hc.2

/-- C5: the position held by the display layer is always in
`[0, total_duration]`: it starts at 0, and every sample received from the
worker or reporter is clamped into `[0, audio_length]` before being stored,
so after any `ProgressBar::update` — whatever positions were sent — the
stored (and hence shown) position stays in range. -/
theorem reported_position_clamped (audio_length current : Int)
    (received : List Int) (hlen : 0 ≤ audio_length) (h0 : 0 ≤ current)
    (h1 : current ≤ audio_length) :
    0 ≤ initial_audio_pos ∧ initial_audio_pos ≤ audio_length ∧
    0 ≤ progress_update audio_length current received ∧
    progress_update audio_length current received ≤ audio_length := by
  obtain ⟨hl, hr⟩ := progress_update_bounds audio_length received current hlen h0 h1
  exact ⟨le_refl 0, hlen, hl, hr⟩

/-- Witness for C5: a 100-unit track receiving the samples
`[250, -3, 42]` (an overshoot, an undershoot and an in-range value). -/
theorem reported_position_clamped_witness :
    0 ≤ initial_audio_pos ∧ initial_audio_pos ≤ (100 : Int) ∧
    0 ≤ progress_update 100 0 [250, -3, 42] ∧
    progress_update 100 0 [250, -3, 42] ≤ 100 :=
  reported_position_clamped 100 0 [250, -3, 42] (by decide) (by decide)
    (by decide)

/-- C10: every command handler requires an initialized sink: `with_sink`
panics with `"Sink not initialized"` exactly when the shared slot is still
`None`, and once the slot holds `Some sink` (as `play_audio` establishes
before entering the message loop) `handle_messages` never reaches that
panic branch — it returns the handler's result for every message. -/
theorem with_sink_requires_initialized_sink {α : Type} (f : Sink → α)
    (env : Int → Bool) (m : Message) (s : Sink) :
    with_sink none f = .error "Sink not initialized" ∧
    handle_messages env m (some s) = .ok (apply_message env m s) :=
  ⟨rfl, rfl⟩

/-- C9 counterexample: the lock-holding closures of the source do sleep,
seek and send while holding the sink lock — the reporter's `with_sink`
closure sleeps 100 ms before its position read, and the `FastForward` /
`Rewind` closures run the seek and the channel send under the lock. -/
theorem lock_held_across_sleep_counterexample :
    Action.sleep 100 ∈ reporter_locked_actions ∧
    Action.trySeek ∈ handler_locked_actions (.fastForward 3) ∧
    Action.sendPos ∈ handler_locked_actions (.rewind 3) := by
  decide

/-- C9 amended: the reporter holds the sink lock across its 100 ms sleep
together with the position read (its own channel send is outside the lock);
the `FastForward` and `Rewind` handlers hold the lock across the whole
read–seek–send sequence; only `Play` and `Pause` hold it for just the
single instantaneous state transition, and no command handler sleeps while
holding the lock. -/
theorem lock_discipline_actual :
    Action.sleep 100 ∈ reporter_locked_actions ∧
    Action.sendPos ∉ reporter_locked_actions ∧
    (∀ m : Message, ∀ ms : Nat, Action.sleep ms ∉ handler_locked_actions m) ∧
    (∀ d : Int,
      Action.trySeek ∈ handler_locked_actions (.fastForward d) ∧
      Action.sendPos ∈ handler_locked_actions (.fastForward d) ∧
      Action.trySeek ∈ handler_locked_actions (.rewind d) ∧
      Action.sendPos ∈ handler_locked_actions (.rewind d)) ∧
    handler_locked_actions .play = [.play] ∧
    handler_locked_actions .pause = [.pause] := by
  refine ⟨by decide, by decide, ?_, ?_, rfl, rfl⟩
  · intro m ms
    cases m <;> simp [handler_locked_actions]
  · intro d
    refine ⟨?_, ?_, ?_, ?_⟩ <;> simp [handler_locked_actions]

/-- With every send succeeding, the reporter loop never breaks. -/
theorem reporter_run_none_of_alive (alive : Nat → Bool)
    (h : ∀ i, alive i = true) :
    ∀ fuel i, reporter_run alive fuel i = none := by
  intro fuel
  induction fuel with
  | zero => intro i; rfl
  | succ n ih =>
    intro i
    simp only [reporter_run, h i, if_true]
    exact ih (i + 1)

/-- With the first failing send at index `k`, the reporter loop breaks after
exactly `k + 1` iterations. -/
theorem reporter_run_stops (alive : Nat → Bool) (k : Nat)
    (hk : alive k = false) :
    ∀ fuel i, (∀ j, i ≤ j → j < k → alive j = true) → i ≤ k →
      k < i + fuel → reporter_run alive fuel i = some (k + 1) := by
  intro fuel
  induction fuel with
  | zero => intro i _ h1 h2; omega
  | succ n ih =>
    intro i hj h1 h2
    by_cases hik : i = k
    · subst hik
      simp [reporter_run, hk]
    · have hai : alive i = true := hj i le_rfl (by omega)
      simp only [reporter_run, hai, if_true]
      exact ih (i + 1) (fun j hj1 hj2 => hj j (by omega) hj2) (by omega)
        (by omega)

/-- C7: when the consumer of the position channel is dropped so that the
send of iteration `k` is the first to fail, the reporter loop breaks
gracefully after exactly `k + 1` iterations — one polling interval past the
drop, with no retry (and, the sink slot being initialized, no panic); while
every send succeeds the loop never terminates. -/
theorem reporter_exits_gracefully_on_drop (alive : Nat → Bool) (k : Nat)
    (hk : alive k = false) (hbefore : ∀ j, j < k → alive j = true)
    (alive2 : Nat → Bool) (hall : ∀ i, alive2 i = true) :
    (∀ fuel, k < fuel → reporter_run alive fuel 0 = some (k + 1)) ∧
    (∀ fuel, reporter_run alive2 fuel 0 = none) := by
  constructor
  · intro fuel hf
    exact reporter_run_stops alive k hk fuel 0 (fun j _ hj => hbefore j hj)
      (by omega) (by omega)
  · intro fuel
    exact reporter_run_none_of_alive alive2 hall fuel 0

/-- Witness for C7: the consumer disappears before iteration 2, so with
fuel 5 the loop breaks after exactly 3 iterations; with the consumer alive
the loop is still running after 5 iterations. -/
theorem reporter_exits_gracefully_on_drop_witness :
    reporter_run (fun i => decide (i < 2)) 5 0 = some (2 + 1) ∧
    reporter_run (fun _ => true) 5 0 = none :=
  ⟨(reporter_exits_gracefully_on_drop (fun i => decide (i < 2)) 2 (by decide)
      (fun j hj => decide_eq_true hj) (fun _ => true) (fun _ => rfl)).1 5
      (by decide),
   (reporter_exits_gracefully_on_drop (fun i => decide (i < 2)) 2 (by decide)
      (fun j hj => decide_eq_true hj) (fun _ => true) (fun _ => rfl)).2 5⟩

/-- A single `WorkerStep` preserves `handled ++ queue = sent`. -/
theorem worker_step_preserves (env : Int → Bool) {w w' : WorkerState}
    (h : WorkerStep env w w') (hi : w.handled ++ w.queue = w.sent) :
    w'.handled ++ w'.queue = w'.sent := by
  cases h with
  | send m =>
    simp only []
    rw [← hi, List.append_assoc]
  | handle m rest hq =>
    simp only []
    rw [← hi, hq]
    simp

/-- C2: from the worker's initial state, however sends by any producers and
handle steps by the single consumer interleave, the list of commands the
worker has fully handled is always a prefix of the list of commands sent,
in exactly the send order: `handled ++ queue = sent`, and in particular the
handled sequence never reorders, drops or duplicates commands, and each
command is handled to completion before the next is dequeued. -/
theorem commands_processed_in_send_order (env : Int → Bool) (s0 : Sink)
    (w : WorkerState)
    (h : Relation.ReflTransGen (WorkerStep env) (init_worker_state s0) w) :
    w.handled ++ w.queue = w.sent ∧
    ∃ pending, w.handled ++ pending = w.sent := by
  have hinv : w.handled ++ w.queue = w.sent := by
    induction h with
    | refl => rfl
    | tail _ hstep ih => exact worker_step_preserves env hstep ih
  exact ⟨hinv, w.queue, hinv⟩

/-- Witness for C2: the spec's example run — `[Pause, Play, Pause]` is sent
and then handled; the handled sequence is exactly `[Pause, Play, Pause]`. -/
theorem commands_processed_in_send_order_witness :
    [Message.pause, Message.play, Message.pause] ++ ([] : List Message) =
      [Message.pause, Message.play, Message.pause] ∧
    ∃ pending, [Message.pause, Message.play, Message.pause] ++ pending =
      [Message.pause, Message.play, Message.pause] := by
  have t1 : WorkerStep (fun _ => true) (init_worker_state ⟨0, false⟩)
      { sent := [.pause], queue := [.pause], handled := [],
        sink := ⟨0, false⟩ } :=
    WorkerStep.send _ _
  have t2 : WorkerStep (fun _ => true)
      { sent := [.pause], queue := [.pause], handled := [],
        sink := ⟨0, false⟩ }
      { sent := [.pause, .play], queue := [.pause, .play], handled := [],
        sink := ⟨0, false⟩ } :=
    WorkerStep.send _ _
  have t3 : WorkerStep (fun _ => true)
      { sent := [.pause, .play], queue := [.pause, .play], handled := [],
        sink := ⟨0, false⟩ }
      { sent := [.pause, .play, .pause],
        queue := [.pause, .play, .pause], handled := [],
        sink := ⟨0, false⟩ } :=
    WorkerStep.send _ _
  have t4 : WorkerStep (fun _ => true)
      { sent := [.pause, .play, .pause],
        queue := [.pause, .play, .pause], handled := [],
        sink := ⟨0, false⟩ }
      { sent := [.pause, .play, .pause], queue := [.play, .pause],
        handled := [.pause], sink := ⟨0, true⟩ } :=
    WorkerStep.handle _ _ _ rfl
  have t5 : WorkerStep (fun _ => true)
      { sent := [.pause, .play, .pause], queue := [.play, .pause],
        handled := [.pause], sink := ⟨0, true⟩ }
      { sent := [.pause, .play, .pause], queue := [.pause],
        handled := [.pause, .play], sink := ⟨0, false⟩ } :=
    WorkerStep.handle _ _ _ rfl
  have t6 : WorkerStep (fun _ => true)
      { sent := [.pause, .play, .pause], queue := [.pause],
        handled := [.pause, .play], sink := ⟨0, false⟩ }
      { sent := [.pause, .play, .pause], queue := [],
        handled := [.pause, .play, .pause], sink := ⟨0, true⟩ } :=
    WorkerStep.handle _ _ _ rfl
  have h : Relation.ReflTransGen (WorkerStep (fun _ => true))
      (init_worker_state ⟨0, false⟩)
      { sent := [.pause, .play, .pause], queue := [],
        handled := [.pause, .play, .pause], sink := ⟨0, true⟩ } :=
    ((((Relation.ReflTransGen.single t1).tail t2).tail t3).tail t4).tail
      t5 |>.tail t6
  exact commands_processed_in_send_order (fun _ => true) ⟨0, false⟩ _ h

/-- C4 counterexample: a file whose tag carries an artist but no title does
not yield the fallback at startup: `parse_file` rejects it with `FakeTag`
and `NowPlaying::new` panics on the `unwrap` — even though the extractor
alone would have produced `"Untitled audio"`. -/
theorem now_playing_missing_title_counterexample :
    parse_file (some ⟨none, some "Kensuke Ushio"⟩) none =
      .error .fakeTag ∧
    now_playing_new (some ⟨none, some "Kensuke Ushio"⟩) none =
      .error "called unwrap on an Err value" ∧
    extract_title_from_tag ⟨none, some "Kensuke Ushio"⟩ = "Untitled audio" :=
  ⟨rfl, rfl, rfl⟩

/-- C4 amended: `extract_title_from_tag` / `extract_artist_from_tag` do
yield the fallback strings `"Untitled audio"` / `"No artist"` for a tag
missing the field, but `parse_file` rejects every file whose tag lacks a
title or an artist, so startup metadata extraction fails (`unwrap` panic in
`NowPlaying::new`) for such files rather than showing the fallbacks; the
fallback path is unreachable from startup. -/
theorem metadata_fallbacks_unreachable_at_startup (tag : Tag)
    (first_tag : Option Tag)
    (hmiss : tag.title = none ∨ tag.artist = none) :
    (tag.title = none → extract_title_from_tag tag = "Untitled audio") ∧
    (tag.artist = none → extract_artist_from_tag tag = "No artist") ∧
    parse_file (some tag) first_tag = .error .fakeTag ∧
    now_playing_new (some tag) first_tag =
      .error "called unwrap on an Err value" := by
  obtain ⟨t, a⟩ := tag
  have hcond : (Option.isNone t || Option.isNone a) = true := by
    rcases hmiss with h | h <;> simp_all
  have hparse : parse_file (some ⟨t, a⟩) first_tag = .error .fakeTag := by
    simp [parse_file, Option.orElse, hcond]
  refine ⟨fun h => by simp at h; simp [extract_title_from_tag, h],
    fun h => by simp at h; simp [extract_artist_from_tag, h], hparse, ?_⟩
  simp [now_playing_new, hparse]

/-- Witness for the amended C4 at a tag with an artist but no title. -/
theorem metadata_fallbacks_unreachable_at_startup_witness :
    ((⟨none, some "Kensuke Ushio"⟩ : Tag).title = none →
      extract_title_from_tag ⟨none, some "Kensuke Ushio"⟩ =
        "Untitled audio") ∧
    ((⟨none, some "Kensuke Ushio"⟩ : Tag).artist = none →
      extract_artist_from_tag ⟨none, some "Kensuke Ushio"⟩ = "No artist") ∧
    parse_file (some ⟨none, some "Kensuke Ushio"⟩) none =
      .error .fakeTag ∧
    now_playing_new (some ⟨none, some "Kensuke Ushio"⟩) none =
      .error "called unwrap on an Err value" :=
  metadata_fallbacks_unreachable_at_startup ⟨none, some "Kensuke Ushio"⟩
    none (Or.inl rfl)

end AudioPlayer
